import Mathlib

/-!
Verification of the VBASeismograph extraction-and-comparison engine.

Shallow embedding of the pure text-processing core of
`vba_seismograph3.py` (Python 3 version, the primary authority) and of the
regex-based identifier extraction of `vba_seismograph.py` (Python 2
version).  Text is modelled as `List Char` (one Python character per list
element; the sources operate on already-decoded text).  Python `float`
fractions are modelled as exact rationals `ℚ`; the fractions produced by
the program are exact small-denominator ratios, and the thresholds
0.5 / 0.3 / 0.1 are modelled by the rationals they denote.
-/

set_option maxRecDepth 100000

/-- Program text: a decoded Python string, one `Char` per character. -/
abbrev Str := List Char

/-- Coerce a Lean string literal into the `Str` model. -/
def strOf (s : String) : Str := s.data

/-- Python `str.startswith`: the first argument is a candidate leading
segment of the second. -/
def startswith (pre s : Str) : Bool := List.isPrefixOf pre s

/-- Python `str.endswith`: `suf` is a trailing segment of `s`. -/
def pyEndswith (suf s : Str) : Bool := List.isPrefixOf suf.reverse s.reverse

/-- Characters treated as whitespace by Python `str.strip()` (ASCII range:
space, tab, newline, carriage return, vertical tab, form feed). -/
def isPySpace (c : Char) : Bool :=
  c = ' ' || c = '\t' || c = '\n' || c = '\r' || c = '\x0b' || c = '\x0c'

/-- Python `str.strip()`: drop leading and trailing whitespace. -/
def pyStrip (s : Str) : Str :=
  ((s.dropWhile isPySpace).reverse.dropWhile isPySpace).reverse

/-- Python `s.split("\n")`: split on every newline character; the empty
string yields one empty piece exactly as in Python. -/
def splitNL : Str → List Str
  | [] => [[]]
  | c :: rest =>
    if c = '\n' then [] :: splitNL rest
    else
      match splitNL rest with
      | [] => [[c]]
      | p :: ps => (c :: p) :: ps

/-- Index of the first character satisfying `p`, as Python `str.index`
would report it (`none` models the `ValueError` case). -/
def idxOf (p : Char → Bool) : Str → Option Nat
  | [] => none
  | c :: rest => if p c then some 0 else (idxOf p rest).map (· + 1)

/-- Python substring test `needle in hay`. -/
def isSubstrOf (needle hay : Str) : Bool :=
  (List.range (hay.length + 1)).any (fun i => List.isPrefixOf needle (hay.drop i))

/-- Python `s.replace(chr(34), chr(34)*2)`: double every double-quote. -/
def doubleQuotes : Str → Str
  | [] => []
  | c :: rest => if c = '"' then '"' :: '"' :: doubleQuotes rest else c :: doubleQuotes rest

/-- The errors the embedded code can raise: `ValueError` from
`str.index`, and Python's `UnboundLocalError` from reading the never
assigned `threshold` variable. -/
inductive PyErr where
  | valueError
  | unboundLocalError
deriving DecidableEq

instance {ε α : Type} [DecidableEq ε] [DecidableEq α] : DecidableEq (Except ε α) :=
  fun x y =>
    match x, y with
    | .error e, .error f =>
      if h : e = f then .isTrue (by rw [h]) else .isFalse (by intro hh; cases hh; exact h rfl)
    | .error _, .ok _ => .isFalse (by intro hh; cases hh)
    | .ok _, .error _ => .isFalse (by intro hh; cases hh)
    | .ok a, .ok b =>
      if h : a = b then .isTrue (by rw [h]) else .isFalse (by intro hh; cases hh; exact h rfl)

/-- Loop body of `_get_pcode_strs` over the split lines: a trimmed line
beginning with `LitStr ` has the text after its first double-quote and
before its final character extracted, quote-doubled, and added; a
`LitStr `-prefixed line without any double-quote raises `ValueError`
(Python `line.index` on a missing character). -/
def get_pcode_strs_go : List Str → Finset Str → Except PyErr (Finset Str)
  | [], acc => .ok acc
  | line :: rest, acc =>
    let l := pyStrip line
    if startswith (strOf "LitStr ") l then
      match idxOf (fun c => c = '"') l with
      | none => .error .valueError
      | some i => get_pcode_strs_go rest (insert (doubleQuotes ((l.drop (i + 1)).dropLast)) acc)
    else get_pcode_strs_go rest acc

/-- `_get_pcode_strs` (vba_seismograph3.py lines 168-188): pull the
literal strings out of a p-code disassembly. -/
def get_pcode_strs (pcode : Str) : Except PyErr (Finset Str) :=
  get_pcode_strs_go (splitNL pcode) ∅

/-- The last character of a string as a one-character string, Python
`s[-1]` (only ever used under a guard that makes `s` nonempty). -/
def lastCharOf (s : Str) : Str :=
  match s.reverse with
  | [] => []
  | c :: _ => [c]

/-- Loop body of `_get_pcode_comments`: a trimmed `QuoteRem ` line has
the text after its first double-quote and before its final character
extracted; if that text ends with an underscore the code keeps only its
last character (`curr_str = curr_str[-1]`), i.e. the one-character
string made of that underscore. -/
def get_pcode_comments_go : List Str → Finset Str → Except PyErr (Finset Str)
  | [], acc => .ok acc
  | line :: rest, acc =>
    let l := pyStrip line
    if startswith (strOf "QuoteRem ") l then
      match idxOf (fun c => c = '"') l with
      | none => .error .valueError
      | some i =>
        let cs := (l.drop (i + 1)).dropLast
        let cs2 := if pyEndswith (strOf "_") cs then lastCharOf cs else cs
        get_pcode_comments_go rest (insert cs2 acc)
    else get_pcode_comments_go rest acc

/-- `_get_pcode_comments` (vba_seismograph3.py lines 217-239): pull the
comments out of a p-code disassembly. -/
def get_pcode_comments (pcode : Str) : Except PyErr (Finset Str) :=
  get_pcode_comments_go (splitNL pcode) ∅

/-- `_missing_ids` (vba_seismograph3.py lines 143-164): fraction of
p-code identifiers that do not occur as substrings of the VBA source;
`0.0` for an empty identifier set. -/
def missing_ids (vba : Str) (pcode_ids : Finset Str) : ℚ :=
  if pcode_ids.card = 0 then 0
  else ((pcode_ids.filter (fun i => isSubstrOf i vba = false)).card : ℚ) / (pcode_ids.card : ℚ)

/-- A string wrapped in double quotes, as `_missing_strs` builds it. -/
def quoteWrapD (s : Str) : Str := '"' :: s ++ ['"']

/-- A string wrapped in single quotes, as `_missing_strs` builds it. -/
def quoteWrapS (s : Str) : Str := '\'' :: s ++ ['\'']

/-- `_missing_strs` (vba_seismograph3.py lines 192-213): a literal
string is missing when neither its double-quoted nor its single-quoted
wrapping occurs in the VBA source. -/
def missing_strs (vba : Str) (pcode_strs : Finset Str) : ℚ :=
  if pcode_strs.card = 0 then 0
  else ((pcode_strs.filter (fun s =>
    isSubstrOf (quoteWrapD s) vba = false ∧ isSubstrOf (quoteWrapS s) vba = false)).card : ℚ) /
    (pcode_strs.card : ℚ)

/-- Replace apostrophes by spaces, the first step of the comment
pattern construction in `_missing_comments`. -/
def aposToSpace (s : Str) : Str := s.map (fun c => if c = '\'' then ' ' else c)

/-- Python `s.split(sep)` for a one-character separator (used as
`pat.split(" ")` in `_missing_comments`). -/
def splitOnChar (sep : Char) : Str → List Str
  | [] => [[]]
  | c :: rest =>
    if c = sep then [] :: splitOnChar sep rest
    else
      match splitOnChar sep rest with
      | [] => [[c]]
      | p :: ps => (c :: p) :: ps

/-- The whitespace-separated tokens of a comment after apostrophes are
turned into spaces; empty pieces are dropped, exactly as the
`len(i) == 0: continue` branch of `_missing_comments` drops them.
The code escapes every regex metacharacter it lists before splitting, so
each pattern token matches exactly its original text; the token lists
here therefore hold the unescaped text.  (A comment containing a brace
quantifier form would be the one spot where Python's `re` could read a
token non-literally; the code never escapes the opening brace.) -/
def commentTokens (s : Str) : List Str :=
  (splitOnChar ' ' (aposToSpace s)).filter (fun t => !t.isEmpty)

/-- The separator character class `[\s\r\n']` of the comment pattern. -/
def sepChar (c : Char) : Bool := isPySpace c || c = '\''

/-- Match the token pattern at the start of `s`: each token literally, and
between consecutive tokens 1 to 50 separator-class characters, with the
backtracking of the `{1,50}` quantifier modelled by the existential over
the run length. -/
def matchFrom : List Str → Str → Bool
  | [], _ => true
  | [t], s => List.isPrefixOf t s
  | t :: t2 :: ts, s =>
    List.isPrefixOf t s &&
      (List.range 50).any (fun j =>
        let rest := s.drop t.length
        decide ((rest.take (j + 1)).length = j + 1) &&
          (rest.take (j + 1)).all sepChar && matchFrom (t2 :: ts) (rest.drop (j + 1)))

/-- Python `re.search(pat, vba, re.MULTILINE) is not None` for the
comment pattern: the pattern matches at some position (the `MULTILINE`
flag only affects anchors, and the pattern has none). -/
def commentFound (s vba : Str) : Bool :=
  (List.range (vba.length + 1)).any (fun i => matchFrom (commentTokens s) (vba.drop i))

/-- `_missing_comments` (vba_seismograph3.py lines 243-296): a comment is
missing when it is not a substring of the VBA source and the tolerant
multi-line pattern also fails to match. -/
def missing_comments (vba : Str) (pcode_comments : Finset Str) : ℚ :=
  if pcode_comments.card = 0 then 0
  else ((pcode_comments.filter (fun s =>
    isSubstrOf s vba = false ∧ commentFound s vba = false)).card : ℚ) /
    (pcode_comments.card : ℚ)

/-- The fixed denylist `common_ids` of boilerplate identifier names
(vba_seismograph3.py lines 76-100). -/
def common_ids : Finset Str :=
  {strOf "Word", strOf "VBA", strOf "Win16", strOf "Win32", strOf "Win64",
   strOf "Mac", strOf "VBA6", strOf "VBA7", strOf "Project1", strOf "stdole",
   strOf "VBAProject", strOf "Excel", strOf "Project", strOf "ThisDocument",
   strOf "_Evaluate", strOf "Normal", strOf "Office", strOf "Add",
   strOf "MSForms", strOf "UserForm", strOf "Document"}

/-- One character each side of the identifier, as a single returned
match of `re.findall("." + curr_id + ".", instructions)` records it. -/
def reFindallDotGo (id : Str) : Nat → Str → List Str
  | 0, _ => []
  | _ + 1, [] => []
  | n + 1, c :: rest =>
    if (c != '\n') && List.isPrefixOf id rest &&
        (match rest.drop id.length with
         | d :: _ => d != '\n'
         | [] => false) then
      (c :: (rest.take id.length ++ (rest.drop id.length).take 1)) ::
        reFindallDotGo id n (rest.drop (id.length + 1))
    else reFindallDotGo id n rest

/-- Python `re.findall("." + curr_id + ".", instructions)`: every
non-overlapping, left-to-right occurrence of the identifier with exactly
one non-newline character on each side (`.` does not match newline
without `re.DOTALL`).  This embeds the call for identifiers whose text
holds no regex metacharacter, the only shape exercised here; an
identifier carrying metacharacters would be compiled as a regex by
Python (and can even raise `re.error`). -/
def reFindallDot (id s : Str) : List Str := reFindallDotGo id s.length s

/-- The boundary check of `_get_pcode_ids`: keep the identifier only if
some occurrence has a non-alphanumeric character on both sides. -/
def boundaryKeep (id instr : Str) : Bool :=
  (reFindallDot id instr).any (fun m =>
    !(m.headD ' ').isAlphanum && !(m.getLastD ' ').isAlphanum)

/-- The underscore normalization of `_get_pcode_ids`: strip all leading
then all trailing underscores. -/
def stripUnderscores (s : Str) : Str :=
  ((s.dropWhile (fun c => c = '_')).reverse.dropWhile (fun c => c = '_')).reverse

/-- The per-identifier noise filter of `_get_pcode_ids` when an
instruction buffer is present: the identifier must occur in the
instruction text, be outside the denylist, not be a generated
`_B_var_` temporary, and pass the boundary check. -/
def idKeepWithInstr (instr i : Str) : Bool :=
  isSubstrOf i instr && decide (i ∉ common_ids) &&
    !(startswith (strOf "_B_var_") i) && boundaryKeep i instr

/-- The per-identifier noise filter of the Python 3 `_get_pcode_ids`:
when no `Line #` header was ever seen (`instructions is None`) both the
containment test and the boundary check are skipped. -/
def idKeep3 : Option Str → Str → Bool
  | none, i => decide (i ∉ common_ids) && !(startswith (strOf "_B_var_") i)
  | some instr, i => idKeepWithInstr instr i

/-- The line scanner of the Python 3 `_get_pcode_ids`
(vba_seismograph3.py lines 31-72): collects the identifier-table entries
and the instruction buffer.  State: current line list, `in_id_section`,
`skip`, `instructions` (`none` until a `Line #` line arrives), collected
ids.  Branch order follows the source: skip, `Identifiers:` header,
`Line #` start, instruction append, identifier-section handling. -/
def parsePcode3 : List Str → Bool → Bool → Option Str → Finset Str → Finset Str × Option Str
  | [], _, _, instr, ids => (ids, instr)
  | line :: rest, inId, skip, instr, ids =>
    if skip then parsePcode3 rest inId false instr ids
    else if line = strOf "Identifiers:" then parsePcode3 rest true true instr ids
    else if startswith (strOf "Line #") line && instr.isNone then
      parsePcode3 rest inId skip (some []) ids
    else
      match instr with
      | some buf => parsePcode3 rest inId skip (some (buf ++ line ++ ['\n'])) ids
      | none =>
        if inId then
          match idxOf (fun c => c = ':') line with
          | some k => parsePcode3 rest inId skip instr (insert (pyStrip (line.drop (k + 1))) ids)
          | none => parsePcode3 rest false skip instr ids
        else parsePcode3 rest inId skip instr ids

/-- `_get_pcode_ids` (vba_seismograph3.py lines 20-139): parse the
identifier table and instruction stream, filter the identifiers through
the noise filter, and normalize underscores. -/
def get_pcode_ids (pcode : Str) : Finset Str :=
  let p := parsePcode3 (splitNL pcode) false false none ∅
  (p.1.filter (fun i => idKeep3 p.2 i = true)).image stripUnderscores

/-- The character class `[0-9|A-F]` of the Python 2 identifier-table
regex (note: the class contains a literal bar). -/
def isHexBar (c : Char) : Bool :=
  ('0' ≤ c && c ≤ '9') || c = '|' || ('A' ≤ c && c ≤ 'F')

/-- Try the tail of the Python 2 identifier-line regex
`[0-9|A-F]{4}: .*` at the start of `s`: on success return the matched
text (without the leading newline) and the remainder of the input after
the match. -/
def tryIdLine (s : Str) : Option (Str × Str) :=
  if (s.take 4).length = 4 && (s.take 4).all isHexBar &&
      startswith (strOf ": ") (s.drop 4) then
    some ((s.take 4) ++ strOf ": " ++ (s.drop 6).takeWhile (fun c => c ≠ '\n'),
      s.drop (6 + ((s.drop 6).takeWhile (fun c => c ≠ '\n')).length)
    )
  else none

/-- Scanner for `re.findall("\n[0-9|A-F]{4}: .*", pcode)` of the
Python 2 `_get_pcode_ids`: left-to-right, non-overlapping matches, each
anchored at a newline; the fuel is the input length, one character at
least is consumed per step. -/
def findallIdLinesGo : Nat → Str → List Str
  | 0, _ => []
  | _ + 1, [] => []
  | n + 1, c :: rest =>
    if c = '\n' then
      match tryIdLine rest with
      | some (m, rest2) => ('\n' :: m) :: findallIdLinesGo n rest2
      | none => findallIdLinesGo n rest
    else findallIdLinesGo n rest

/-- All matches of the Python 2 identifier-table regex. -/
def findallIdLines (pcode : Str) : List Str := findallIdLinesGo pcode.length pcode

/-- Python `s.split(sep)` for a multi-character separator, non
overlapping and left to right (used as `pcode_id.split(": ")`). -/
def splitSubGo (sep : Str) : Nat → Str → List Str
  | 0, s => [s]
  | _ + 1, [] => [[]]
  | n + 1, s@(c :: rest) =>
    if List.isPrefixOf sep s then [] :: splitSubGo sep n (s.drop sep.length)
    else
      match splitSubGo sep n rest with
      | [] => [[c]]
      | p :: ps => (c :: p) :: ps

/-- Python `s.split(sep)` (full split, all occurrences). -/
def splitSub (sep s : Str) : List Str := splitSubGo sep s.length s

/-- The raw identifier set of the Python 2 `_get_pcode_ids`
(vba_seismograph.py lines 31-33): second piece of each regex match split
on `": "`. -/
def rawIdsPy2 (pcode : Str) : Finset Str :=
  ((findallIdLines pcode).map (fun m => (splitSub (strOf ": ") m).getD 1 [])).toFinset

/-- Check the Python 2 instruction-header regex `Line #[0-9]{1,6}:` plus
its mandatory newline at the start of `s`; returns the matched length.
The quantifier's backtracking collapses to: the maximal digit run after
`Line #` has length 1 to 6 and is followed by `:` and a newline. -/
def instrHeaderCheck (s : Str) : Option Nat :=
  if startswith (strOf "Line #") s then
    if 1 ≤ ((s.drop 6).takeWhile Char.isDigit).length &&
        ((s.drop 6).takeWhile Char.isDigit).length ≤ 6 then
      match s.drop (6 + ((s.drop 6).takeWhile Char.isDigit).length) with
      | ':' :: '\n' :: _ => some (6 + ((s.drop 6).takeWhile Char.isDigit).length + 2)
      | _ => none
    else none
  else none

/-- Consume the `(\t.*\n)*` body of an instruction-block match: greedily
take consecutive segments of a tab, non-newline characters, and a
newline; return the consumed text and the remainder. -/
def tabLinesGo : Nat → Str → Str × Str
  | 0, s => ([], s)
  | n + 1, s =>
    match s with
    | '\t' :: r =>
      (match r.drop ((r.takeWhile (fun c => c ≠ '\n')).length) with
       | '\n' :: r2 =>
         let rec2 := tabLinesGo n r2
         ('\t' :: (r.takeWhile (fun c => c ≠ '\n')) ++ '\n' :: rec2.1, rec2.2)
       | _ => ([], s))
    | _ => ([], s)

/-- The `(\t.*\n)*` body consumer with length fuel. -/
def tabLines (s : Str) : Str × Str := tabLinesGo s.length s

/-- Scanner for `re.finditer("Line #[0-9]{1,6}:\n(\t.*\n)*", pcode)` of
the Python 2 `_get_pcode_ids`: every full match text, left to right,
non overlapping. -/
def findInstrMatchesGo : Nat → Str → List Str
  | 0, _ => []
  | _ + 1, [] => []
  | n + 1, s@(_ :: rest) =>
    match instrHeaderCheck s with
    | some hlen =>
      (s.take hlen ++ (tabLines (s.drop hlen)).1) ::
        findInstrMatchesGo n (tabLines (s.drop hlen)).2
    | none => findInstrMatchesGo n rest

/-- All matches of the Python 2 instruction-block regex. -/
def findInstrMatches (pcode : Str) : List Str := findInstrMatchesGo pcode.length pcode

/-- Python `s.split(":", 1)[1]`: the text after the first colon (every
instruction-block match contains the header colon, so the index is
always in range there; the colon-free case keeps `s` as harmless
junk). -/
def afterFirstColon (s : Str) : Str :=
  match idxOf (fun c => c = ':') s with
  | some k => s.drop (k + 1)
  | none => s

/-- Python `s.strip("\n")`: drop leading and trailing newlines only. -/
def stripNewlines (s : Str) : Str :=
  ((s.dropWhile (fun c => c = '\n')).reverse.dropWhile (fun c => c = '\n')).reverse

/-- Per-match processing of the Python 2 instruction blocks:
`match.group().replace("\t", "").split(":", 1)[1].strip("\n")`. -/
def processInstrMatch (m : Str) : Str :=
  stripNewlines (afterFirstColon (m.filter (fun c => c ≠ '\t')))

/-- Python `"\n".join(pieces)`. -/
def joinNL : List Str → Str
  | [] => []
  | [x] => x
  | x :: xs => x ++ '\n' :: joinNL xs

/-- The instruction buffer of the Python 2 `_get_pcode_ids`
(vba_seismograph.py lines 36-40): the processed nonempty instruction
blocks joined with newlines; the empty string when there is no match. -/
def instructionsPy2 (pcode : Str) : Str :=
  joinNL (((findInstrMatches pcode).map processInstrMatch).filter (fun x => !x.isEmpty))

/-- `_get_pcode_ids` of vba_seismograph.py (Python 2 version, lines
20-106): regex-extracted raw identifiers filtered against the regex
extracted instruction buffer (which is a plain string here, so the
`is not None` guards of the shared filter are vacuously true), then
underscore-normalized. -/
def get_pcode_ids_py2 (pcode : Str) : Finset Str :=
  ((rawIdsPy2 pcode).filter
    (fun i => idKeepWithInstr (instructionsPy2 pcode) i = true)).image stripUnderscores

/-- The sensitivity-to-threshold mapping of `detect_stomping_via_pcode`
(vba_seismograph3.py lines 418-424): the if/elif chain assigns
`threshold` only for the three valid levels; `none` records that the
variable stays unassigned. -/
def thresholdOf (s : Str) : Option ℚ :=
  if s = strOf "low" then some (1 / 2)
  else if s = strOf "medium" then some (3 / 10)
  else if s = strOf "high" then some (1 / 10)
  else none

/-- The text-processing core of `detect_stomping_via_pcode`
(vba_seismograph3.py lines 418-452), taking the two already-extracted
texts as the spec's `decide(pcodeText, sourceText, sensitivity)` does:
identifier extraction and matching run first; the first comparison with
`threshold` raises `UnboundLocalError` when the sensitivity was not
recognized; then string and comment extraction and matching; the final
verdict is the disjunction the three sequential `if` statements
accumulate into `stomped`. -/
def detect_stomping_via_pcode (pcode vba sensitivity : Str) : Except PyErr Bool :=
  let pcode_ids := get_pcode_ids pcode
  let pct_missing_ids := missing_ids vba pcode_ids
  match thresholdOf sensitivity with
  | none => .error .unboundLocalError
  | some threshold =>
    match get_pcode_strs pcode with
    | .error e => .error e
    | .ok pcode_strs =>
      let pct_missing_strs := missing_strs vba pcode_strs
      match get_pcode_comments pcode with
      | .error e => .error e
      | .ok pcode_comments =>
        let pct_missing_comments := missing_comments vba pcode_comments
        .ok (decide (pct_missing_ids > threshold) || decide (pct_missing_strs > threshold) ||
          decide (pct_missing_comments > threshold))

/-- The successive stages of the detection core, used to record in which
order the core runs them. -/
inductive Step where
  | extractIds
  | matchIds
  | extractStrs
  | matchStrs
  | extractComments
  | matchComments
deriving DecidableEq

/-- `detect_stomping_via_pcode` instrumented with the list of stages the
source executes before producing its outcome, in source order:
`_get_pcode_ids` and `_missing_ids` run before the first use of
`threshold`, which is where an unrecognized sensitivity blows up. -/
def detect_stomping_via_pcode_steps (pcode vba sensitivity : Str) :
    List Step × Except PyErr Bool :=
  let pcode_ids := get_pcode_ids pcode
  let pct_missing_ids := missing_ids vba pcode_ids
  match thresholdOf sensitivity with
  | none => ([Step.extractIds, Step.matchIds], .error .unboundLocalError)
  | some threshold =>
    match get_pcode_strs pcode with
    | .error e => ([Step.extractIds, Step.matchIds, Step.extractStrs], .error e)
    | .ok pcode_strs =>
      let pct_missing_strs := missing_strs vba pcode_strs
      match get_pcode_comments pcode with
      | .error e =>
        ([Step.extractIds, Step.matchIds, Step.extractStrs, Step.matchStrs,
          Step.extractComments], .error e)
      | .ok pcode_comments =>
        let pct_missing_comments := missing_comments vba pcode_comments
        ([Step.extractIds, Step.matchIds, Step.extractStrs, Step.matchStrs,
          Step.extractComments, Step.matchComments],
         .ok (decide (pct_missing_ids > threshold) || decide (pct_missing_strs > threshold) ||
           decide (pct_missing_comments > threshold)))

/-- Index of the last double-quote of a string, read off the reverse. -/
def lastQuoteIdx (l : Str) : Option Nat :=
  match idxOf (fun c => c = '"') l.reverse with
  | some k => some (l.length - 1 - k)
  | none => none

/-- The extraction rule in the words of the spec (and of claim C7): the
text strictly between the first and the last double-quote character of
the line.  This is the spec-side definition used to compare against the
code's slice `line[line.index(chr(34)) + 1 : -1]`. -/
def betweenFirstLastQuote (l : Str) : Str :=
  match idxOf (fun c => c = '"') l, lastQuoteIdx l with
  | some i, some j => (l.take j).drop (i + 1)
  | _, _ => []

/-- Characterization of the detection core when the sensitivity is
recognized and both fallible extractions succeed. -/
theorem detect_eq_of (pcode vba s : Str) (t : ℚ) (strs cmts : Finset Str)
    (ht : thresholdOf s = some t) (hs : get_pcode_strs pcode = .ok strs)
    (hc : get_pcode_comments pcode = .ok cmts) :
    detect_stomping_via_pcode pcode vba s =
      .ok (decide (missing_ids vba (get_pcode_ids pcode) > t) ||
        decide (missing_strs vba strs > t) || decide (missing_comments vba cmts > t)) := by
  simp only [detect_stomping_via_pcode, ht, hs, hc]

/-- A successful run of the detection core implies the sensitivity was
recognized and both fallible extractions succeeded. -/
theorem detect_ok_inv (pcode vba s : Str) (b : Bool)
    (h : detect_stomping_via_pcode pcode vba s = .ok b) :
    ∃ t strs cmts, thresholdOf s = some t ∧ get_pcode_strs pcode = .ok strs ∧
      get_pcode_comments pcode = .ok cmts := by
  unfold detect_stomping_via_pcode at h
  cases ht : thresholdOf s with
  | none => rw [ht] at h; cases h
  | some t =>
    rw [ht] at h
    cases hs : get_pcode_strs pcode with
    | error e => rw [hs] at h; cases h
    | ok strs =>
      rw [hs] at h
      cases hc : get_pcode_comments pcode with
      | error e => rw [hc] at h; cases h
      | ok cmts => exact ⟨t, strs, cmts, rfl, rfl, rfl⟩

/-- A positive verdict at a larger threshold stays positive at any
smaller recognized threshold. -/
theorem detect_mono (pcode vba s s' : Str) (t t' : ℚ)
    (ht : thresholdOf s = some t) (ht' : thresholdOf s' = some t') (hle : t' ≤ t)
    (h : detect_stomping_via_pcode pcode vba s = .ok true) :
    detect_stomping_via_pcode pcode vba s' = .ok true := by
  obtain ⟨t0, strs, cmts, ht0, hs, hc⟩ := detect_ok_inv pcode vba s true h
  rw [ht0] at ht
  injection ht with htt
  subst htt
  rw [detect_eq_of pcode vba s t0 strs cmts ht0 hs hc] at h
  rw [detect_eq_of pcode vba s' t' strs cmts ht' hs hc]
  have h2 := (Except.ok.injEq _ _ ).mp h
  simp only [Bool.or_eq_true, decide_eq_true_eq] at h2
  have hgoal : (decide (missing_ids vba (get_pcode_ids pcode) > t') ||
      decide (missing_strs vba strs > t') || decide (missing_comments vba cmts > t')) = true := by
    simp only [Bool.or_eq_true, decide_eq_true_eq]
    rcases h2 with (h3 | h3) | h3
    · exact Or.inl (Or.inl (lt_of_le_of_lt hle h3))
    · exact Or.inl (Or.inr (lt_of_le_of_lt hle h3))
    · exact Or.inr (lt_of_le_of_lt hle h3)
  rw [hgoal]

/-- C1: for every pcode text, source text and recognized sensitivity,
the detection core answers `stomped = true` exactly when at least one of
the three missing-fractions strictly exceeds the threshold the
sensitivity selects (low ↦ 0.5, medium ↦ 0.3, high ↦ 0.1); equality
with the threshold does not trigger, and one category suffices. -/
theorem stomped_iff_fraction_exceeds_threshold :
    thresholdOf (strOf "low") = some (1 / 2) ∧
    thresholdOf (strOf "medium") = some (3 / 10) ∧
    thresholdOf (strOf "high") = some (1 / 10) ∧
    ∀ pcode vba s : Str, ∀ t : ℚ, ∀ strs cmts : Finset Str,
      thresholdOf s = some t → get_pcode_strs pcode = .ok strs →
      get_pcode_comments pcode = .ok cmts →
      (detect_stomping_via_pcode pcode vba s = .ok true ↔
        (missing_ids vba (get_pcode_ids pcode) > t ∨ missing_strs vba strs > t ∨
          missing_comments vba cmts > t)) := by
  refine ⟨rfl, rfl, rfl, fun pcode vba s t strs cmts ht hs hc => ?_⟩
  rw [detect_eq_of pcode vba s t strs cmts ht hs hc]
  constructor
  · intro h
    have h2 := (Except.ok.injEq _ _ ).mp h
    simpa only [Bool.or_eq_true, decide_eq_true_eq, or_assoc] using h2
  · intro h
    have h2 : (decide (missing_ids vba (get_pcode_ids pcode) > t) ||
        decide (missing_strs vba strs > t) || decide (missing_comments vba cmts > t)) = true := by
      simpa only [Bool.or_eq_true, decide_eq_true_eq, or_assoc] using h
    rw [h2]

/-- Numeric evaluation helper: the value of `_missing_ids` from the two
cardinalities. -/
theorem missing_ids_eval (vba : Str) (ids : Finset Str) (n m : ℕ)
    (hn : ids.card = n) (h0 : n ≠ 0)
    (hm : (ids.filter (fun i => isSubstrOf i vba = false)).card = m) :
    missing_ids vba ids = (m : ℚ) / (n : ℚ) := by
  unfold missing_ids
  rw [hn, hm, if_neg h0]

/-- Numeric evaluation helper: the value of `_missing_strs` from the two
cardinalities. -/
theorem missing_strs_eval (vba : Str) (strs : Finset Str) (n m : ℕ)
    (hn : strs.card = n) (h0 : n ≠ 0)
    (hm : (strs.filter (fun s =>
      isSubstrOf (quoteWrapD s) vba = false ∧ isSubstrOf (quoteWrapS s) vba = false)).card = m) :
    missing_strs vba strs = (m : ℚ) / (n : ℚ) := by
  unfold missing_strs
  rw [hn, hm, if_neg h0]

/-- The concrete missing-identifier fraction of the demonstration
document: its one surviving identifier `Foo` is missing from the empty
source, so the fraction is 1, above every threshold. -/
theorem demo_ids_fraction :
    missing_ids (strOf "") (get_pcode_ids (strOf "Identifiers:\n\n1: Foo\nLine #1:\n\t(Foo)\n")) =
      1 := by
  have hids : get_pcode_ids (strOf "Identifiers:\n\n1: Foo\nLine #1:\n\t(Foo)\n") =
      {strOf "Foo"} := by decide
  rw [hids, missing_ids_eval (strOf "") {strOf "Foo"} 1 1 (by decide) one_ne_zero (by decide)]
  norm_num

/-- Witness for C1 at a concrete stomped document: one identifier
`Foo`, empty source, sensitivity low. -/
theorem stomped_iff_fraction_exceeds_threshold_app :
    detect_stomping_via_pcode (strOf "Identifiers:\n\n1: Foo\nLine #1:\n\t(Foo)\n")
      (strOf "") (strOf "low") = .ok true := by
  refine (stomped_iff_fraction_exceeds_threshold.2.2.2
    (strOf "Identifiers:\n\n1: Foo\nLine #1:\n\t(Foo)\n") (strOf "") (strOf "low")
    (1 / 2) ∅ ∅ rfl rfl rfl).mpr (Or.inl ?_)
  rw [demo_ids_fraction]
  norm_num

/-- C9: for a fixed pair of texts a verdict stomped at sensitivity low
is stomped at medium, and one stomped at medium is stomped at high,
because a fraction strictly above 0.5 is strictly above 0.3, and one
strictly above 0.3 is strictly above 0.1. -/
theorem stomped_monotone_in_sensitivity : ∀ pcode vba : Str,
    (detect_stomping_via_pcode pcode vba (strOf "low") = .ok true →
      detect_stomping_via_pcode pcode vba (strOf "medium") = .ok true) ∧
    (detect_stomping_via_pcode pcode vba (strOf "medium") = .ok true →
      detect_stomping_via_pcode pcode vba (strOf "high") = .ok true) := by
  intro pcode vba
  constructor
  · exact detect_mono pcode vba _ _ (1 / 2) (3 / 10) rfl rfl (by norm_num)
  · exact detect_mono pcode vba _ _ (3 / 10) (1 / 10) rfl rfl (by norm_num)

/-- Witness for C9: the demonstration document is stomped at low, hence
at medium by the theorem. -/
theorem stomped_monotone_in_sensitivity_app :
    detect_stomping_via_pcode (strOf "Identifiers:\n\n1: Foo\nLine #1:\n\t(Foo)\n")
      (strOf "") (strOf "medium") = .ok true := by
  apply (stomped_monotone_in_sensitivity
    (strOf "Identifiers:\n\n1: Foo\nLine #1:\n\t(Foo)\n") (strOf "")).1
  rw [detect_eq_of (strOf "Identifiers:\n\n1: Foo\nLine #1:\n\t(Foo)\n") (strOf "")
    (strOf "low") (1 / 2) ∅ ∅ rfl rfl rfl]
  have h1 : missing_ids (strOf "")
      (get_pcode_ids (strOf "Identifiers:\n\n1: Foo\nLine #1:\n\t(Foo)\n")) > (1 / 2 : ℚ) := by
    rw [demo_ids_fraction]
    norm_num
  rw [decide_eq_true h1]
  rfl

/-- C4: an unrecognized sensitivity leaves `threshold` unassigned, so
the core raises `UnboundLocalError` at the first threshold comparison,
and by then the identifier extraction and identifier matching have
already run (the step trace is exactly those two stages). -/
theorem invalid_sensitivity_unbound_local : ∀ pcode vba s : Str,
    thresholdOf s = none →
    detect_stomping_via_pcode pcode vba s = .error .unboundLocalError ∧
    detect_stomping_via_pcode_steps pcode vba s =
      ([Step.extractIds, Step.matchIds], .error .unboundLocalError) := by
  intro pcode vba s h
  constructor
  · simp only [detect_stomping_via_pcode, h]
  · simp only [detect_stomping_via_pcode_steps, h]

/-- Witness for C4: the sensitivity string `bogus`. -/
theorem invalid_sensitivity_unbound_local_app :
    detect_stomping_via_pcode (strOf "") (strOf "") (strOf "bogus") =
      .error .unboundLocalError ∧
    detect_stomping_via_pcode_steps (strOf "") (strOf "") (strOf "bogus") =
      ([Step.extractIds, Step.matchIds], .error .unboundLocalError) :=
  invalid_sensitivity_unbound_local (strOf "") (strOf "") (strOf "bogus") rfl

/-- An empty identifier set gives fraction 0. -/
theorem missing_ids_empty (vba : Str) : missing_ids vba ∅ = 0 := by
  simp [missing_ids]

/-- An empty literal-string set gives fraction 0. -/
theorem missing_strs_empty (vba : Str) : missing_strs vba ∅ = 0 := by
  simp [missing_strs]

/-- An empty comment set gives fraction 0. -/
theorem missing_comments_empty (vba : Str) : missing_comments vba ∅ = 0 := by
  simp [missing_comments]

/-- Every recognized threshold is positive. -/
theorem thresholdOf_pos (s : Str) (t : ℚ) (h : thresholdOf s = some t) : 0 < t := by
  unfold thresholdOf at h
  split_ifs at h <;> (injection h with hh; subst hh; norm_num)

/-- C8: an empty extracted set gives missing-fraction exactly 0 in each
category, and an empty category can never by itself turn the verdict
positive: whenever it is the empty one and neither other fraction
exceeds the threshold, the core answers `stomped = false`. -/
theorem empty_category_cannot_trigger : ∀ vba : Str,
    missing_ids vba ∅ = 0 ∧ missing_strs vba ∅ = 0 ∧ missing_comments vba ∅ = 0 ∧
    ∀ pcode s : Str, ∀ t : ℚ, ∀ strs cmts : Finset Str,
      thresholdOf s = some t → get_pcode_strs pcode = .ok strs →
      get_pcode_comments pcode = .ok cmts →
      ((get_pcode_ids pcode = ∅ → ¬ missing_strs vba strs > t →
          ¬ missing_comments vba cmts > t →
          detect_stomping_via_pcode pcode vba s = .ok false) ∧
       (strs = ∅ → ¬ missing_ids vba (get_pcode_ids pcode) > t →
          ¬ missing_comments vba cmts > t →
          detect_stomping_via_pcode pcode vba s = .ok false) ∧
       (cmts = ∅ → ¬ missing_ids vba (get_pcode_ids pcode) > t →
          ¬ missing_strs vba strs > t →
          detect_stomping_via_pcode pcode vba s = .ok false)) := by
  intro vba
  refine ⟨missing_ids_empty vba, missing_strs_empty vba, missing_comments_empty vba, ?_⟩
  intro pcode s t strs cmts ht hs hc
  have htpos := thresholdOf_pos s t ht
  have hnot0 : ¬ ((0 : ℚ) > t) := not_lt.mpr (le_of_lt htpos)
  refine ⟨?_, ?_, ?_⟩
  · intro hid h2 h3
    rw [detect_eq_of pcode vba s t strs cmts ht hs hc]
    have h1 : ¬ missing_ids vba (get_pcode_ids pcode) > t := by
      rw [hid, missing_ids_empty]
      exact hnot0
    rw [decide_eq_false h1, decide_eq_false h2, decide_eq_false h3]
    rfl
  · intro hstr h1 h3
    rw [detect_eq_of pcode vba s t strs cmts ht hs hc]
    have h2 : ¬ missing_strs vba strs > t := by
      rw [hstr, missing_strs_empty]
      exact hnot0
    rw [decide_eq_false h1, decide_eq_false h2, decide_eq_false h3]
    rfl
  · intro hcmt h1 h2
    rw [detect_eq_of pcode vba s t strs cmts ht hs hc]
    have h3 : ¬ missing_comments vba cmts > t := by
      rw [hcmt, missing_comments_empty]
      exact hnot0
    rw [decide_eq_false h1, decide_eq_false h2, decide_eq_false h3]
    rfl

/-- Witness for C8: the empty disassembly yields three empty categories
and a negative verdict at sensitivity medium. -/
theorem empty_category_cannot_trigger_app :
    detect_stomping_via_pcode (strOf "") (strOf "") (strOf "medium") = .ok false := by
  refine ((empty_category_cannot_trigger (strOf "")).2.2.2 (strOf "") (strOf "medium")
    (3 / 10) ∅ ∅ rfl rfl rfl).1 (by decide) ?_ ?_
  · rw [missing_strs_empty]
    norm_num
  · rw [missing_comments_empty]
    norm_num

/-- C10: the denylist and generated-name tests run on the raw
identifier before underscore normalization: the raw entry `Word_` is
not in `common_ids`, survives the filter thanks to its non-alphanumeric
neighbours in the instruction stream, and normalization then puts the
denylist name `Word` itself into the returned set. -/
theorem denylist_checked_before_normalization :
    get_pcode_ids (strOf "Identifiers:\n\n1: Word_\nLine #1:\n\t(Word_)\n") = {strOf "Word"} ∧
    strOf "Word" ∈ common_ids ∧ strOf "Word_" ∉ common_ids := by decide

/-- Counterexample to C3 as stated: a disassembly with an identifier
table entry `Foo` and no `Line #` header at all; the Python 3 parser
leaves the instruction buffer as `None`, skips the containment and
boundary checks, and returns `{Foo}`, not the empty set. -/
theorem ids_survive_without_line_header_py3 :
    ((splitNL (strOf "Identifiers:\n\n1: Foo\n")).all
      (fun l => !(startswith (strOf "Line #") l))) = true ∧
    get_pcode_ids (strOf "Identifiers:\n\n1: Foo\n") = {strOf "Foo"} ∧
    get_pcode_ids (strOf "Identifiers:\n\n1: Foo\n") ≠ ∅ := by decide

/-- When the instruction-header pattern matches nowhere, the scanner
finds no instruction block. -/
theorem findInstrMatchesGo_nil (n : ℕ) : ∀ s : Str,
    (∀ i, instrHeaderCheck (s.drop i) = none) → findInstrMatchesGo n s = [] := by
  induction n with
  | zero => intro s _; rfl
  | succ n ih =>
    intro s h
    cases s with
    | nil => rfl
    | cons c rest =>
      have h0 : instrHeaderCheck (c :: rest) = none := h 0
      have hrest : ∀ i, instrHeaderCheck (rest.drop i) = none := by
        intro i
        have := h (i + 1)
        rwa [List.drop_succ_cons] at this
      unfold findInstrMatchesGo
      rw [h0]
      exact ih rest hrest

/-- When the instruction-header pattern matches nowhere, the Python 2
instruction buffer is the empty string. -/
theorem instructionsPy2_nil (pcode : Str)
    (h : ∀ i, instrHeaderCheck (pcode.drop i) = none) : instructionsPy2 pcode = [] := by
  unfold instructionsPy2 findInstrMatches
  rw [findInstrMatchesGo_nil pcode.length pcode h]
  rfl

/-- Against an empty instruction buffer no identifier passes the noise
filter: a nonempty identifier fails the containment test, and the empty
identifier fails the boundary check because the two-character wildcard
pattern cannot match inside an empty string. -/
theorem idKeepWithInstr_empty (i : Str) : idKeepWithInstr [] i = false := by
  cases i with
  | nil => decide
  | cons c cs =>
    have hsub : isSubstrOf (c :: cs) [] = false := rfl
    unfold idKeepWithInstr
    rw [hsub]
    rfl

/-- C3 amended, Python 2 side: if the `Line #<digits>:` header pattern
(with its mandatory trailing newline) occurs nowhere in the disassembly,
the regex-based `_get_pcode_ids` has an empty instruction buffer, every
identifier is dropped by the containment/boundary checks, and the
returned identifier set is empty. -/
theorem ids_empty_without_line_header_py2 : ∀ pcode : Str,
    (∀ i < pcode.length, instrHeaderCheck (pcode.drop i) = none) →
    get_pcode_ids_py2 pcode = ∅ := by
  intro pcode h
  have h' : ∀ i, instrHeaderCheck (pcode.drop i) = none := by
    intro i
    by_cases hi : i < pcode.length
    · exact h i hi
    · rw [List.drop_eq_nil_of_le (le_of_not_lt hi)]
      rfl
  unfold get_pcode_ids_py2
  rw [instructionsPy2_nil pcode h']
  have hall : ∀ i ∈ rawIdsPy2 pcode, ¬ (idKeepWithInstr [] i = true) := by
    intro i _
    rw [idKeepWithInstr_empty i]
    simp
  rw [Finset.filter_false_of_mem hall, Finset.image_empty]

/-- Witness for the amended C3: an identifier-table-only Python 2
disassembly with the entry `Foo` and no instruction header. -/
theorem ids_empty_without_line_header_py2_app :
    get_pcode_ids_py2 (strOf "\n0041: Foo\n") = ∅ :=
  ids_empty_without_line_header_py2 (strOf "\n0041: Foo\n") (by decide)

/-- Counterexample to C5 as stated: `abc` is a substring of the source
`abc`, yet `_missing_strs` reports it missing (fraction 1, not 0),
because the matcher demands a quote-wrapped occurrence. -/
theorem substring_alone_not_present_for_strs :
    isSubstrOf (strOf "abc") (strOf "abc") = true ∧
    missing_strs (strOf "abc") {strOf "abc"} = 1 := by
  constructor
  · decide
  · rw [missing_strs_eval (strOf "abc") {strOf "abc"} 1 1 (by decide) one_ne_zero (by decide)]
    norm_num

/-- C5 amended: plain substring containment of every item forces
fraction 0 for identifiers and for comments; for literal strings the
guarantee needs every item to occur wrapped in double or single quotes
(plain substring containment is not enough, as the counterexample
shows). -/
theorem missing_zero_when_items_present : ∀ vba : Str, ∀ ids strs cmts : Finset Str,
    ((∀ i ∈ ids, isSubstrOf i vba = true) → missing_ids vba ids = 0) ∧
    ((∀ c ∈ cmts, isSubstrOf c vba = true) → missing_comments vba cmts = 0) ∧
    ((∀ s ∈ strs, isSubstrOf (quoteWrapD s) vba = true ∨ isSubstrOf (quoteWrapS s) vba = true) →
      missing_strs vba strs = 0) := by
  intro vba ids strs cmts
  refine ⟨?_, ?_, ?_⟩
  · intro h
    unfold missing_ids
    split_ifs with h0
    · rfl
    · have hf : ids.filter (fun i => isSubstrOf i vba = false) = ∅ :=
        Finset.filter_false_of_mem (fun i hi => by rw [h i hi]; simp)
      rw [hf]
      simp
  · intro h
    unfold missing_comments
    split_ifs with h0
    · rfl
    · have hf : cmts.filter (fun s => isSubstrOf s vba = false ∧ commentFound s vba = false) =
          ∅ :=
        Finset.filter_false_of_mem (fun s hs => by rw [h s hs]; simp)
      rw [hf]
      simp
  · intro h
    unfold missing_strs
    split_ifs with h0
    · rfl
    · have hf : strs.filter (fun s =>
          isSubstrOf (quoteWrapD s) vba = false ∧ isSubstrOf (quoteWrapS s) vba = false) = ∅ := by
        refine Finset.filter_false_of_mem (fun s hs => ?_)
        rcases h s hs with hq | hq
        · rw [hq]; simp
        · rw [hq]; simp
      rw [hf]
      simp

/-- Witness for the amended C5 at concrete items and sources. -/
theorem missing_zero_when_items_present_app :
    missing_ids (strOf "xay") {strOf "a"} = 0 ∧
    missing_comments (strOf "xay") {strOf "a"} = 0 ∧
    missing_strs (strOf "s'a'z") {strOf "a"} = 0 :=
  ⟨(missing_zero_when_items_present (strOf "xay") {strOf "a"} ∅ ∅).1 (by decide),
   (missing_zero_when_items_present (strOf "xay") ∅ ∅ {strOf "a"}).2.1 (by decide),
   (missing_zero_when_items_present (strOf "s'a'z") ∅ {strOf "a"} ∅).2.2 (by decide)⟩

/-- `idxOf` finds nothing exactly when no character satisfies the
predicate (Python `str.index` raising `ValueError`). -/
theorem idxOf_eq_none_iff (p : Char → Bool) : ∀ s : Str,
    (idxOf p s = none ↔ ∀ c ∈ s, p c = false) := by
  intro s
  induction s with
  | nil => simp [idxOf]
  | cons c rest ih =>
    by_cases hc : p c = true
    · simp [idxOf, hc]
    · have hc' : p c = false := by
        cases hpc : p c
        · rfl
        · exact absurd hpc hc
      simp [idxOf, hc', ih]

/-- The string-extraction loop fails exactly when some line of its input
is a trimmed `LitStr ` line without a double-quote; the accumulator is
irrelevant. -/
theorem get_pcode_strs_go_error_iff : ∀ lines : List Str, ∀ acc : Finset Str,
    (get_pcode_strs_go lines acc = .error .valueError ↔
      ∃ l ∈ lines, startswith (strOf "LitStr ") (pyStrip l) = true ∧
        idxOf (fun c => c = '"') (pyStrip l) = none) := by
  intro lines
  induction lines with
  | nil => intro acc; simp [get_pcode_strs_go]
  | cons line rest ih =>
    intro acc
    by_cases hs : startswith (strOf "LitStr ") (pyStrip line) = true
    · cases hidx : idxOf (fun c => c = '"') (pyStrip line) with
      | none => simp [get_pcode_strs_go, hs, hidx]
      | some i => simp [get_pcode_strs_go, hs, hidx, ih]
    · simp [get_pcode_strs_go, hs, ih]

/-- The comment-extraction loop fails exactly when some line of its
input is a trimmed `QuoteRem ` line without a double-quote. -/
theorem get_pcode_comments_go_error_iff : ∀ lines : List Str, ∀ acc : Finset Str,
    (get_pcode_comments_go lines acc = .error .valueError ↔
      ∃ l ∈ lines, startswith (strOf "QuoteRem ") (pyStrip l) = true ∧
        idxOf (fun c => c = '"') (pyStrip l) = none) := by
  intro lines
  induction lines with
  | nil => intro acc; simp [get_pcode_comments_go]
  | cons line rest ih =>
    intro acc
    by_cases hs : startswith (strOf "QuoteRem ") (pyStrip line) = true
    · cases hidx : idxOf (fun c => c = '"') (pyStrip line) with
      | none => simp [get_pcode_comments_go, hs, hidx]
      | some i => simp [get_pcode_comments_go, hs, hidx, ih]
    · simp [get_pcode_comments_go, hs, ih]

/-- Counterexample to C6 as stated: the single malformed line
`LitStr 0x28` (a `LitStr ` token line without any double-quote) makes
the string parser raise `ValueError` instead of degrading to a smaller
set. -/
theorem litstr_line_without_quote_raises :
    get_pcode_strs (strOf "LitStr 0x28") = .error .valueError := by decide

/-- C6 amended: the literal-string and comment extraction raise
`ValueError` precisely when some line of the disassembly, once trimmed,
begins with `LitStr ` (respectively `QuoteRem `) while containing no
double-quote character; on every other input, both extractions return a
set (degrading to smaller sets on other malformed layouts). -/
theorem parse_raises_iff_quoteless_token_line : ∀ pcode : Str,
    (get_pcode_strs pcode = .error .valueError ↔
      ∃ l ∈ splitNL pcode, startswith (strOf "LitStr ") (pyStrip l) = true ∧
        ∀ c ∈ pyStrip l, (c = '"') = False) ∧
    (get_pcode_comments pcode = .error .valueError ↔
      ∃ l ∈ splitNL pcode, startswith (strOf "QuoteRem ") (pyStrip l) = true ∧
        ∀ c ∈ pyStrip l, (c = '"') = False) := by
  intro pcode
  constructor
  · rw [get_pcode_strs, get_pcode_strs_go_error_iff]
    apply exists_congr
    intro l
    apply and_congr_right
    intro _
    apply and_congr_right
    intro _
    rw [idxOf_eq_none_iff]
    apply forall_congr'
    intro c
    apply imp_congr_right
    intro _
    simp
  · rw [get_pcode_comments, get_pcode_comments_go_error_iff]
    apply exists_congr
    intro l
    apply and_congr_right
    intro _
    apply and_congr_right
    intro _
    rw [idxOf_eq_none_iff]
    apply forall_congr'
    intro c
    apply imp_congr_right
    intro _
    simp

/-- A newline-free text is a single line. -/
theorem splitNL_single : ∀ l : Str, '\n' ∉ l → splitNL l = [l] := by
  intro l
  induction l with
  | nil => intro _; rfl
  | cons c rest ih =>
    intro h
    have hc : ¬ (c = '\n') := fun hcc => h (hcc ▸ List.mem_cons_self c rest)
    have hrest : '\n' ∉ rest := fun hm => h (List.mem_cons_of_mem c hm)
    unfold splitNL
    rw [if_neg hc, ih hrest]

/-- A string ending in a double-quote has a double-quote somewhere, so
Python `line.index(chr(34))` succeeds. -/
theorem idxOf_quote_isSome_of_endswith (l : Str)
    (h : pyEndswith (strOf "\"") l = true) :
    ∃ i, idxOf (fun c => c = '"') l = some i := by
  cases hidx : idxOf (fun c => c = '"') l with
  | some i => exact ⟨i, rfl⟩
  | none =>
    exfalso
    unfold pyEndswith at h
    cases hrev : l.reverse with
    | nil => rw [hrev] at h; cases h
    | cons c t =>
      rw [hrev] at h
      have hc : c = '"' := by
        have hb : (('"' == c) && List.isPrefixOf [] t) = true := h
        simp only [List.isPrefixOf, Bool.and_true] at hb
        exact (beq_iff_eq.mp hb).symm
      have hmem : '"' ∈ l := by
        rw [← List.mem_reverse, hrev, hc]
        exact List.mem_cons_self _ _
      have := (idxOf_eq_none_iff (fun c => c = '"') l).mp hidx '"' hmem
      simp at this

/-- When the line ends with a double-quote, the code's slice from after
the first quote to before the final character equals the spec's text
strictly between the first and the last quote. -/
theorem code_slice_eq_between (l : Str) (i : ℕ)
    (hidx : idxOf (fun c => c = '"') l = some i)
    (hend : pyEndswith (strOf "\"") l = true) :
    (l.drop (i + 1)).dropLast = betweenFirstLastQuote l := by
  have hrev : ∃ t, l.reverse = '"' :: t := by
    unfold pyEndswith at hend
    cases hrevv : l.reverse with
    | nil => rw [hrevv] at hend; cases hend
    | cons c t =>
      rw [hrevv] at hend
      have hb : (('"' == c) && List.isPrefixOf [] t) = true := hend
      simp only [List.isPrefixOf, Bool.and_true] at hb
      exact ⟨t, by rw [(beq_iff_eq.mp hb).symm]⟩
  obtain ⟨t, ht⟩ := hrev
  have hlast : lastQuoteIdx l = some (l.length - 1) := by
    unfold lastQuoteIdx
    rw [ht]
    simp [idxOf]
  have hb : betweenFirstLastQuote l = (l.take (l.length - 1)).drop (i + 1) := by
    unfold betweenFirstLastQuote
    rw [hidx, hlast]
  rw [hb, List.dropLast_eq_take, List.length_drop, List.drop_take]
  congr 1
  omega

/-- C7 amended: a newline-free line whose trimmed form begins with
`LitStr ` and ends with a double-quote (the well-formed disassembly
shape) contributes the doubled text strictly between the first and the
last double-quote; on lines not ending in a double-quote, the slice
instead runs from the first double-quote to the penultimate
character. -/
theorem litstr_extracts_between_quotes_when_line_ends_with_quote (line : Str)
    (h0 : '\n' ∉ line)
    (h1 : startswith (strOf "LitStr ") (pyStrip line) = true)
    (h2 : pyEndswith (strOf "\"") (pyStrip line) = true) :
    get_pcode_strs line = .ok {doubleQuotes (betweenFirstLastQuote (pyStrip line))} := by
  obtain ⟨i, hidx⟩ := idxOf_quote_isSome_of_endswith (pyStrip line) h2
  unfold get_pcode_strs
  rw [splitNL_single line h0]
  simp only [get_pcode_strs_go, h1, hidx, if_true]
  rw [code_slice_eq_between (pyStrip line) i hidx h2]
  rfl

/-- Witness for the amended C7 at the concrete line `LitStr "ab"`. -/
theorem litstr_extracts_between_quotes_app :
    get_pcode_strs (strOf "LitStr \"ab\"") =
      .ok {doubleQuotes (betweenFirstLastQuote (pyStrip (strOf "LitStr \"ab\"")))} :=
  litstr_extracts_between_quotes_when_line_ends_with_quote (strOf "LitStr \"ab\"")
    (by decide) (by decide) (by decide)

/-- Counterexample to C7 as stated: on the trimmed line
`LitStr "ab" x` the spec's rule (text strictly between the first and
last double-quote, doubled) yields `ab`, but the parser stores the
slice from after the first quote to before the final character,
`ab"<space>` doubled to `ab""<space>`, and `ab` is not in the result
set. -/
theorem litstr_not_between_first_last_quote :
    get_pcode_strs (strOf "LitStr \"ab\" x") = .ok {strOf "ab\"\" "} ∧
    doubleQuotes (betweenFirstLastQuote (pyStrip (strOf "LitStr \"ab\" x"))) = strOf "ab" ∧
    strOf "ab" ∉ ({strOf "ab\"\" "} : Finset Str) := by decide

/-- Witness for the amended C6: the quoteless token line `LitStr zz`
satisfies the failing side of the equivalence. -/
theorem parse_raises_iff_quoteless_token_line_app :
    get_pcode_strs (strOf "LitStr zz") = .error .valueError :=
  (parse_raises_iff_quoteless_token_line (strOf "LitStr zz")).1.mpr
    ⟨strOf "LitStr zz", by decide, by decide, by decide⟩

/-- A string ending in an underscore has that underscore as its Python
`s[-1]`. -/
theorem lastCharOf_endswith_underscore (s : Str)
    (h : pyEndswith (strOf "_") s = true) : lastCharOf s = strOf "_" := by
  unfold pyEndswith at h
  unfold lastCharOf
  cases hrev : s.reverse with
  | nil => rw [hrev] at h; cases h
  | cons c t =>
    rw [hrev] at h
    have hb : (('_' == c) && List.isPrefixOf [] t) = true := h
    simp only [List.isPrefixOf, Bool.and_true] at hb
    have hc : c = '_' := (beq_iff_eq.mp hb).symm
    rw [hc]
    rfl

/-- Counterexample to C2 as stated: on the line `QuoteRem "abc_"` the
text between the first and last double-quote is `abc_`, which ends with
the continuation underscore, so the claim predicts the comment `abc`
(the underscore dropped); the source's `curr_str = curr_str[-1]`
instead keeps only the last character, the stored set is the
one-character comment `_`, and `abc` is not in it. -/
theorem comment_underscore_claim_refuted :
    get_pcode_comments (strOf "QuoteRem \"abc_\"") = .ok {strOf "_"} ∧
    betweenFirstLastQuote (pyStrip (strOf "QuoteRem \"abc_\"")) = strOf "abc_" ∧
    pyEndswith (strOf "_") (strOf "abc_") = true ∧
    (strOf "abc_").dropLast = strOf "abc" ∧
    strOf "abc" ∉ ({strOf "_"} : Finset Str) := by decide

/-- C2 amended: a newline-free line whose trimmed form begins with
`QuoteRem ` and ends with a double-quote (the well-formed disassembly
shape, as in the approved reading of C7) has the text strictly between
its first and last double-quote extracted; when that text ends with an
underscore the comment added to the result set is the one-character
string `_` (the code keeps only the last character,
`curr_str = curr_str[-1]`), and otherwise the extracted text is added
unchanged. -/
theorem quoterem_underscore_keeps_last_char (line : Str)
    (h0 : '\n' ∉ line)
    (h1 : startswith (strOf "QuoteRem ") (pyStrip line) = true)
    (h2 : pyEndswith (strOf "\"") (pyStrip line) = true) :
    get_pcode_comments line =
      .ok {if pyEndswith (strOf "_") (betweenFirstLastQuote (pyStrip line)) = true
           then strOf "_" else betweenFirstLastQuote (pyStrip line)} := by
  obtain ⟨i, hidx⟩ := idxOf_quote_isSome_of_endswith (pyStrip line) h2
  unfold get_pcode_comments
  rw [splitNL_single line h0]
  simp only [get_pcode_comments_go, h1, hidx, if_true]
  rw [code_slice_eq_between (pyStrip line) i hidx h2]
  by_cases he : pyEndswith (strOf "_") (betweenFirstLastQuote (pyStrip line)) = true
  · rw [if_pos he, if_pos he, lastCharOf_endswith_underscore _ he]
    rfl
  · rw [if_neg he, if_neg he]
    rfl

/-- Witness for the amended C2 at the concrete line `QuoteRem "x_"`:
the extracted text `x_` ends with an underscore, so the stored comment
is `_`. -/
theorem quoterem_underscore_keeps_last_char_app :
    get_pcode_comments (strOf "QuoteRem \"x_\"") =
      .ok {if pyEndswith (strOf "_")
             (betweenFirstLastQuote (pyStrip (strOf "QuoteRem \"x_\""))) = true
           then strOf "_" else betweenFirstLastQuote (pyStrip (strOf "QuoteRem \"x_\""))} :=
  quoterem_underscore_keeps_last_char (strOf "QuoteRem \"x_\"")
    (by decide) (by decide) (by decide)
